import Mathlib

/-!
Verification of the ai-news-summarizer pipeline: shallow Lean embeddings of
the repository's pure computation kernels (response parsers, deduplication,
job-status mutation, health labelling, timeline assembly, config storage),
with theorems settling the specification claims about them.

Machine integers do not occur in the modelled code (Python integers are
unbounded); timestamps are modelled as natural numbers (seconds), and the
exact float arithmetic of the health computation is modelled over `Rat`.
-/

/-! ## Python string primitives

Helpers mirroring the Python `str` methods used by the modelled code.
Strings are processed through their `List Char` representation; Python
`str.lower`/`str.upper` are ASCII-effective on the data involved, matching
`Char.toLower`/`Char.toUpper`.  -/

/-- Python `str.strip()` whitespace class (ASCII subset). -/
def pyIsSpace (c : Char) : Bool :=
  c = ' ' || c = '\t' || c = '\n' || c = '\r' || c = '\x0b' || c = '\x0c'

/-- Strip leading whitespace from a character list. -/
def stripLeftList (cs : List Char) : List Char := cs.dropWhile pyIsSpace

/-- Strip leading and trailing whitespace from a character list. -/
def stripList (cs : List Char) : List Char :=
  ((stripLeftList cs).reverse.dropWhile pyIsSpace).reverse

/-- Python `s.strip()`. -/
def pyStrip (s : String) : String := String.mk (stripList s.data)

/-- Python `s.lower()` (ASCII, as effective on the modelled data). -/
def pyLower (s : String) : String := String.mk (s.data.map Char.toLower)

/-- Python `s.upper()` (ASCII, as effective on the modelled data). -/
def pyUpper (s : String) : String := String.mk (s.data.map Char.toUpper)

/-- Python `s.startswith(p)`. -/
def pyStartsWith (s p : String) : Bool := p.data.isPrefixOf s.data

/-- Python `s[n:]`. -/
def pyDropChars (s : String) : Nat → String := fun n => String.mk (s.data.drop n)

/-- Python `s[:n]`. -/
def pyTakeChars (s : String) : Nat → String := fun n => String.mk (s.data.take n)

/-- Split a character list on a separator character (Python `s.split(sep)`). -/
def splitOnChar (sep : Char) : List Char → List (List Char)
  | [] => [[]]
  | c :: cs =>
    match splitOnChar sep cs with
    | [] => [[c]]
    | g :: gs => if c = sep then [] :: g :: gs else (c :: g) :: gs

/-- Python `s.split('\n')`. -/
def pySplitLines (s : String) : List String :=
  (splitOnChar '\n' s.data).map String.mk

/-- Accumulator loop for whitespace-run splitting. -/
def wordsGo (cur : List Char) : List Char → List (List Char)
  | [] => if cur.isEmpty then [] else [cur.reverse]
  | c :: cs =>
    if pyIsSpace c then
      if cur.isEmpty then wordsGo [] cs else cur.reverse :: wordsGo [] cs
    else wordsGo (c :: cur) cs

/-- Python `s.split()` (split on whitespace runs, no empty fields). -/
def pyWords (s : String) : List String := (wordsGo [] s.data).map String.mk

/-- Join word fragments with single spaces (Python `' '.join(ws)`). -/
def joinSpaceList : List (List Char) → List Char
  | [] => []
  | [w] => w
  | w :: ws => w ++ ' ' :: joinSpaceList ws

/-- Numeric value of a decimal digit character. -/
def digitVal (c : Char) : Nat := c.toNat - 48

/-- Digit-run parser for Python `int()`: digits with single interior
underscores, accumulating into `acc`. -/
def parseDigitsGo (acc : Nat) : List Char → Option Nat
  | [] => some acc
  | '_' :: c :: rest =>
    if c.isDigit then parseDigitsGo (acc * 10 + digitVal c) rest else none
  | c :: rest =>
    if c.isDigit then parseDigitsGo (acc * 10 + digitVal c) rest else none

/-- Python `int(s)`: surrounding whitespace stripped, optional sign, then a
non-empty digit run (underscores permitted between digits); `none` models
`ValueError`. -/
def pyParseInt (s : String) : Option Int :=
  match stripList s.data with
  | '-' :: c :: rest =>
    if c.isDigit then (parseDigitsGo (digitVal c) rest).map (fun n => -(n : Int)) else none
  | '+' :: c :: rest =>
    if c.isDigit then (parseDigitsGo (digitVal c) rest).map (fun n => (n : Int)) else none
  | c :: rest =>
    if c.isDigit then (parseDigitsGo (digitVal c) rest).map (fun n => (n : Int)) else none
  | [] => none

/-! ## Shared processing core: response parsers

Embeds `NewsProcessingCore._parse_summary_response` and
`NewsProcessingCore._parse_critique_response`
(src/app/agents/news_processing_core.py).  The `try/except` wrappers in the
source can only fire on unexpected runtime errors, which the pure embedding
has none of; the happy path is modelled.  -/

/-- Which section of the summary response is currently open. -/
inductive SumSection where
  | empty
  | summary
  | points
deriving DecidableEq

/-- Fold state for `_parse_summary_response`. -/
structure SumState where
  summary : String
  bullet_points : List String
  current_section : SumSection
deriving DecidableEq

/-- One iteration of the line loop of `_parse_summary_response`. -/
def summaryLineStep (st : SumState) (rawLine : String) : SumState :=
  let line := pyStrip rawLine
  if line = "" then st
  else if pyStartsWith (pyUpper line) "SUMMARY:" then
    { st with summary := pyStrip (pyDropChars line 8), current_section := .summary }
  else if pyStartsWith (pyUpper line) "KEY POINTS:" then
    { st with current_section := .points }
  else if pyStartsWith line "•" || pyStartsWith line "-" || pyStartsWith line "*" then
    { st with bullet_points := st.bullet_points ++ [pyStrip (pyDropChars line 1)] }
  else if st.current_section = .summary && st.summary = "" then
    { st with summary := line }
  else if st.current_section = .points then
    { st with bullet_points := st.bullet_points ++ [line] }
  else st

/-- Result of `_parse_summary_response`. -/
structure SummaryParse where
  summary : String
  bullet_points : List String
deriving DecidableEq

/-- `NewsProcessingCore._parse_summary_response(response)`. -/
def parse_summary_response (response : String) : SummaryParse :=
  let lines := pySplitLines (pyStrip response)
  let st := lines.foldl summaryLineStep ⟨"", [], .empty⟩
  { summary := if st.summary = "" then "Summary not available" else st.summary
    bullet_points :=
      if st.bullet_points = [] then ["Key points not available"] else st.bullet_points }

/-- `SummarizerAgent._parse_summary_response` (src/app/agents/summarizer_agent.py)
is line-for-line identical to the core parser; the embedding shares the body. -/
def summarizer_parse_summary_response (response : String) : SummaryParse :=
  parse_summary_response response

/-- Which section of the critique response is currently open. -/
inductive CritSection where
  | empty
  | critique
  | improvements
  | summary
  | points
deriving DecidableEq

/-- Fold state for `_parse_critique_response`. -/
structure CritState where
  quality_score : Int
  critique : String
  improvements : List String
  improved_summary : String
  improved_points : List String
  current_section : CritSection
deriving DecidableEq

/-- Python `line.split(':', 1)[1]`: everything after the first colon.
The callers only reach this when the line contains a colon; on a
colon-free line the source would raise and fall into the `except` arm,
which the per-line callers model separately. -/
def afterFirstColon (s : String) : String :=
  match splitOnChar ':' s.data with
  | [] => ""
  | [_] => ""
  | _ :: rest => String.mk (joinColon rest)
where
  /-- Re-join the remaining fields with `':'` (undoing the full split to
  model a maxsplit of 1). -/
  joinColon : List (List Char) → List Char
    | [] => []
    | [w] => w
    | w :: ws => w ++ ':' :: joinColon ws

/-- The `QUALITY_SCORE:` arm of `_parse_critique_response`: take the text
after the colon, its first whitespace-separated token, parse it as an int and
clamp to `[1, 10]`; any failure yields the default 7. -/
def parseQualityScore (line : String) : Int :=
  match pyWords (pyStrip (afterFirstColon line)) with
  | [] => 7
  | t :: _ =>
    match pyParseInt t with
    | some n => max 1 (min 10 n)
    | none => 7

/-- One iteration of the line loop of `_parse_critique_response`. -/
def critiqueLineStep (st : CritState) (rawLine : String) : CritState :=
  let line := pyStrip rawLine
  if line = "" then st
  else if pyStartsWith (pyUpper line) "QUALITY_SCORE:" then
    { st with quality_score := parseQualityScore line }
  else if pyStartsWith (pyUpper line) "CRITIQUE:" then
    { st with critique := pyStrip (afterFirstColon line), current_section := .critique }
  else if pyStartsWith (pyUpper line) "IMPROVEMENTS:" then
    { st with current_section := .improvements }
  else if pyStartsWith (pyUpper line) "IMPROVED_SUMMARY:" then
    { st with improved_summary := pyStrip (afterFirstColon line), current_section := .summary }
  else if pyStartsWith (pyUpper line) "IMPROVED_KEY_POINTS:" then
    { st with current_section := .points, improved_points := [] }
  else if pyStartsWith line "•" || pyStartsWith line "-" || pyStartsWith line "*" then
    if st.current_section = .points then
      { st with improved_points := st.improved_points ++ [pyStrip (pyDropChars line 1)] }
    else if st.current_section = .improvements then
      { st with improvements := st.improvements ++ [pyStrip (pyDropChars line 1)] }
    else st
  else if st.current_section = .critique && st.critique = "" then
    { st with critique := line }
  else if st.current_section = .summary && st.improved_summary = "" then
    { st with improved_summary := line }
  else if st.current_section = .improvements then
    { st with improvements := st.improvements ++ [line] }
  else st

/-- Result of `_parse_critique_response`. -/
structure CritiqueParse where
  improved_summary : String
  improved_bullet_points : List String
  critique : String
  quality_score : Int
  improvements : List String
deriving DecidableEq

/-- `NewsProcessingCore._parse_critique_response(response, original_summary,
original_points)`. -/
def parse_critique_response (response original_summary : String)
    (original_points : List String) : CritiqueParse :=
  let lines := pySplitLines (pyStrip response)
  let st := lines.foldl critiqueLineStep
    ⟨7, "", [], original_summary, original_points, .empty⟩
  let improved_summary :=
    if st.improved_summary = "" || st.improved_summary = original_summary then
      if st.quality_score < 8 then "[Improved] " ++ original_summary
      else st.improved_summary
    else st.improved_summary
  let improved_points := if st.improved_points = [] then original_points else st.improved_points
  let critique :=
    if st.critique = "" then
      "Quality score: " ++ toString st.quality_score ++ "/10. Summary meets basic standards."
    else st.critique
  let improvements :=
    if st.improvements = [] then
      if st.quality_score ≥ 8 then ["No specific improvements identified"]
      else ["Minor clarity improvements made"]
    else st.improvements
  { improved_summary := improved_summary
    improved_bullet_points := improved_points
    critique := critique
    quality_score := st.quality_score
    improvements := improvements }

/-! ## Claims C5 and C6: parser guarantees -/

set_option maxRecDepth 10000

/-- The `QUALITY_SCORE:` arm always produces a value in `[1, 10]`. -/
theorem parseQualityScore_bounds (line : String) :
    1 ≤ parseQualityScore line ∧ parseQualityScore line ≤ 10 := by
  unfold parseQualityScore
  rcases hw : pyWords (pyStrip (afterFirstColon line)) with _ | ⟨t, ts⟩
  · exact ⟨by norm_num, by norm_num⟩
  · rcases hp : pyParseInt t with _ | n <;> simp only [hp]
    · exact ⟨by norm_num, by norm_num⟩
    · exact ⟨le_sup_left, sup_le (by norm_num) inf_le_left⟩

/-- The score field of one critique-loop iteration is either the incoming
score or the value of the `QUALITY_SCORE:` arm. -/
theorem critiqueLineStep_score (st : CritState) (line : String) :
    (critiqueLineStep st line).quality_score = st.quality_score ∨
    (critiqueLineStep st line).quality_score = parseQualityScore (pyStrip line) := by
  simp only [critiqueLineStep]
  repeat' split
  all_goals simp

/-- The critique line loop preserves the score bound `[1, 10]`. -/
theorem critiqueLineStep_score_bounds (st : CritState) (line : String)
    (h : 1 ≤ st.quality_score ∧ st.quality_score ≤ 10) :
    1 ≤ (critiqueLineStep st line).quality_score ∧
      (critiqueLineStep st line).quality_score ≤ 10 := by
  rcases critiqueLineStep_score st line with hq | hq <;> rw [hq]
  · exact h
  · exact parseQualityScore_bounds _

/-- Folding the critique line loop from a bounded score keeps it bounded. -/
theorem critiqueFold_score_bounds (lines : List String) (st : CritState)
    (h : 1 ≤ st.quality_score ∧ st.quality_score ≤ 10) :
    1 ≤ (lines.foldl critiqueLineStep st).quality_score ∧
      (lines.foldl critiqueLineStep st).quality_score ≤ 10 := by
  induction lines generalizing st with
  | nil => exact h
  | cons l ls ih => exact ih _ (critiqueLineStep_score_bounds st l h)

/-- C5: for every input string, the quality score extracted by the
critique-response parser is clamped into `[1, 10]`; `QUALITY_SCORE: 15`
yields 10, `QUALITY_SCORE: -3` yields 1, and an unparseable score token
yields the default 7. -/
theorem claim_C5_quality_score_clamped :
    (∀ (response original_summary : String) (original_points : List String),
      1 ≤ (parse_critique_response response original_summary original_points).quality_score ∧
      (parse_critique_response response original_summary original_points).quality_score ≤ 10) ∧
    (parse_critique_response "QUALITY_SCORE: 15" "s" []).quality_score = 10 ∧
    (parse_critique_response "QUALITY_SCORE: -3" "s" []).quality_score = 1 ∧
    (parse_critique_response "QUALITY_SCORE: abc" "s" []).quality_score = 7 := by
  refine ⟨fun response original_summary original_points => ?_, by rfl, by rfl, by rfl⟩
  unfold parse_critique_response
  exact critiqueFold_score_bounds _ _ (by norm_num)

/-- C6: the summary-response parser always returns a non-empty summary and a
non-empty bullet list; empty or header-free garbage input yields the literal
placeholders, in both the core and the summarizer copies of the parser. -/
theorem claim_C6_parse_summary_total :
    (∀ response : String,
      (parse_summary_response response).summary ≠ "" ∧
      (parse_summary_response response).bullet_points ≠ [] ∧
      (summarizer_parse_summary_response response).summary ≠ "" ∧
      (summarizer_parse_summary_response response).bullet_points ≠ []) ∧
    parse_summary_response "" =
      ⟨"Summary not available", ["Key points not available"]⟩ ∧
    summarizer_parse_summary_response "random text" =
      ⟨"Summary not available", ["Key points not available"]⟩ := by
  have total : ∀ response : String,
      (parse_summary_response response).summary ≠ "" ∧
      (parse_summary_response response).bullet_points ≠ [] := by
    intro response
    unfold parse_summary_response
    constructor
    · dsimp only
      split
      · decide
      · assumption
    · dsimp only
      split
      · decide
      · assumption
  refine ⟨fun response => ?_, by rfl, by rfl⟩
  exact ⟨(total response).1, (total response).2, (total response).1, (total response).2⟩

/-! ## Job rows and status mutation

Embeds the job-status mutators:
`WorkflowStatusSync.update_job_status` (src/app/services/workflow_status_sync.py),
the workflow activities `mark_job_completed` / `mark_job_failed`
(src/app/workflows/news_workflow.py), and the endpoints
`sync_job_status` / `sync_all_job_statuses` (src/app/main.py).
Timestamps are natural numbers of seconds; `datetime.utcnow()` is the
explicit `now` argument.  -/

/-- A `news_jobs` row, restricted to the columns the mutators touch. -/
structure NewsJob where
  status : String
  created_at : Nat
  completed_at : Option Nat
  error_message : Option String
  workflow_run_id : Option String
deriving DecidableEq

/-- The terminal statuses checked by `update_job_status`. -/
def terminalStatuses : List String := ["completed", "failed", "terminated"]

/-- The `if task_id:` arm of `update_job_status`. -/
def apply_task_id (job : NewsJob) (task_id : Option String) : NewsJob :=
  match task_id with
  | some t => if t ≠ "" then { job with workflow_run_id := some t } else job
  | none => job

/-- The `if error_message:` arm of `update_job_status`. -/
def apply_error_message (job : NewsJob) (error_message : Option String) : NewsJob :=
  match error_message with
  | some e => if e ≠ "" then { job with error_message := some e } else job
  | none => job

/-- The field mutations of `update_job_status` before the completion stamp:
status overwrite, then the two truthiness-guarded optional fields. -/
def update_job_fields (job : NewsJob) (status : String)
    (error_message task_id : Option String) : NewsJob :=
  apply_error_message (apply_task_id { job with status := status } task_id) error_message

/-- `WorkflowStatusSync.update_job_status`, database part: overwrites the
status unconditionally, stores the task id / error message when truthy, and
stamps `completed_at` only when the new status is terminal and no stamp
exists. -/
def update_job_status (job : NewsJob) (status : String)
    (error_message task_id : Option String) (now : Nat) : NewsJob :=
  let j3 := update_job_fields job status error_message task_id
  if status ∈ terminalStatuses ∧ j3.completed_at = none then
    { j3 with completed_at := some now }
  else j3

/-- Activity `mark_job_completed`: sets the status and stamps `completed_at`
unconditionally. -/
def mark_job_completed (job : NewsJob) (now : Nat) : NewsJob :=
  { job with status := "completed", completed_at := some now }

/-- Activity `mark_job_failed`: sets status, error message and stamps
`completed_at` unconditionally. -/
def mark_job_failed (job : NewsJob) (error_message : String) (now : Nat) : NewsJob :=
  { job with status := "failed", error_message := some error_message,
             completed_at := some now }

/-- Response of `POST /news/sync-job-status/{job_id}` together with the
mutated row. -/
structure SyncJobResult where
  job : NewsJob
  reported_status : String
  message : String
deriving DecidableEq

/-- Endpoint `sync_job_status` for a found job: a non-`started` job is
reported unchanged; a `started` job strictly older than one hour
(`created_at < now - timedelta(hours=1)`) is marked completed and stamped;
a younger one is kept. -/
def sync_job_status (job : NewsJob) (now : Nat) : SyncJobResult :=
  if job.status ≠ "started" then
    ⟨job, job.status, "Job already completed or failed"⟩
  else if job.created_at + 3600 < now then
    ⟨{ job with status := "completed", completed_at := some now }, "completed",
      "Job marked as completed (was likely finished in Celery)"⟩
  else
    ⟨job, job.status, "Job is recent, keeping current status"⟩

/-- Endpoint `sync_all_job_statuses`: every `started` job strictly older
than 30 minutes is marked completed and stamped. -/
def sync_all_job_statuses (jobs : List NewsJob) (now : Nat) : List NewsJob :=
  jobs.map fun j =>
    if j.status = "started" ∧ j.created_at + 1800 < now then
      { j with status := "completed", completed_at := some now }
    else j

/-! ## Claim C1: status forward-transitions and single completion stamp -/

/-- C1 counterexample: the claim states that no operation transitions a job
out of a terminal status and that `completed_at` is set exactly once.  On an
already-completed job stamped at time 100, the workflow activity
`mark_job_failed` moves the status `completed → failed` and re-stamps
`completed_at` to 200. -/
theorem claim_C1_counterexample :
    (mark_job_failed
      { status := "completed", created_at := 0, completed_at := some 100,
        error_message := none, workflow_run_id := none } "boom" 200).status = "failed" ∧
    (mark_job_failed
      { status := "completed", created_at := 0, completed_at := some 100,
        error_message := none, workflow_run_id := none } "boom" 200).completed_at =
      some 200 := by
  exact ⟨rfl, rfl⟩

/-- C1 amended: `update_job_status` stamps `completed_at` at most once (only
on the first transition into a terminal status, never overwriting an existing
stamp), and both sync endpoints (`sync_job_status` and the bulk
`sync_all_job_statuses`) mutate only jobs currently in `started`, moving them
forward to `completed` with the stamp; but the workflow activities
`mark_job_completed`/`mark_job_failed` guard neither the previous status nor
an existing stamp. -/
theorem claim_C1_amended :
    (∀ (job : NewsJob) (status : String) (em tid : Option String) (now t : Nat),
      job.completed_at = some t →
      (update_job_status job status em tid now).completed_at = some t) ∧
    (∀ (job : NewsJob) (status : String) (em tid : Option String) (now : Nat),
      status ∉ terminalStatuses →
      (update_job_status job status em tid now).completed_at = job.completed_at) ∧
    (∀ (job : NewsJob) (status : String) (em tid : Option String) (now : Nat),
      status ∈ terminalStatuses → job.completed_at = none →
      (update_job_status job status em tid now).completed_at = some now) ∧
    (∀ (job : NewsJob) (now : Nat), job.status ≠ "started" →
      (sync_job_status job now).job = job) ∧
    (∀ (job : NewsJob) (now : Nat), job.status = "started" →
      (sync_job_status job now).job.status = "started" ∨
      ((sync_job_status job now).job.status = "completed" ∧
        (sync_job_status job now).job.completed_at = some now)) ∧
    (∀ (jobs : List NewsJob) (now : Nat),
      List.Forall₂ (fun j j' =>
        (j.status ≠ "started" → j' = j) ∧
        (j.status = "started" → j' = j ∨
          (j'.status = "completed" ∧ j'.completed_at = some now)))
        jobs (sync_all_job_statuses jobs now)) ∧
    (∀ (job : NewsJob) (now : Nat),
      (mark_job_completed job now).completed_at = some now ∧
      (mark_job_failed job "e" now).completed_at = some now) := by
  have tid_completed : ∀ (job : NewsJob) (tid : Option String),
      (apply_task_id job tid).completed_at = job.completed_at := by
    intro job tid
    rcases tid with _ | t
    · rfl
    · simp only [apply_task_id]
      split <;> rfl
  have em_completed : ∀ (job : NewsJob) (em : Option String),
      (apply_error_message job em).completed_at = job.completed_at := by
    intro job em
    rcases em with _ | e
    · rfl
    · simp only [apply_error_message]
      split <;> rfl
  have fields_completed : ∀ (job : NewsJob) (status : String) (em tid : Option String),
      (update_job_fields job status em tid).completed_at = job.completed_at := by
    intro job status em tid
    simp only [update_job_fields, em_completed, tid_completed]
  have upd_shape : ∀ (job : NewsJob) (status : String) (em tid : Option String) (now : Nat),
      (update_job_status job status em tid now).completed_at =
        if status ∈ terminalStatuses ∧ job.completed_at = none then some now
        else job.completed_at := by
    intro job status em tid now
    simp only [update_job_status, fields_completed]
    split <;> simp_all [fields_completed]
  refine ⟨?_, ?_, ?_, ?_, ?_, ?_, ?_⟩
  · intro job status em tid now t ht
    rw [upd_shape]
    simp [ht]
  · intro job status em tid now hnt
    rw [upd_shape]
    simp [hnt]
  · intro job status em tid now hterm hnone
    rw [upd_shape]
    simp [hterm, hnone]
  · intro job now h
    simp [sync_job_status, h]
  · intro job now h
    simp only [sync_job_status, h]
    split
    · simp_all
    · split
      · right
        exact ⟨rfl, rfl⟩
      · left
        exact h
  · intro jobs now
    induction jobs with
    | nil => exact List.Forall₂.nil
    | cons j rest ih =>
      have hcons : sync_all_job_statuses (j :: rest) now =
          (if j.status = "started" ∧ j.created_at + 1800 < now then
            { j with status := "completed", completed_at := some now } else j) ::
          sync_all_job_statuses rest now := rfl
      rw [hcons]
      refine List.Forall₂.cons ⟨?_, ?_⟩ ih
      · intro hns
        exact if_neg fun hcond => hns hcond.1
      · intro hs
        by_cases hold : j.created_at + 1800 < now
        · refine Or.inr ?_
          rw [if_pos ⟨hs, hold⟩]
          exact ⟨rfl, rfl⟩
        · exact Or.inl (if_neg fun hcond => hold hcond.2)
  · intro job now
    exact ⟨rfl, rfl⟩

/-- C1 amended, witness: the amended theorem applied at concrete jobs,
including the bulk endpoint leaving a concrete `failed` job unchanged. -/
theorem claim_C1_amended_witness :
    (update_job_status
      { status := "started", created_at := 0, completed_at := some 5,
        error_message := none, workflow_run_id := none } "completed" none none 9).completed_at =
      some 5 ∧
    (sync_job_status
      { status := "failed", created_at := 0, completed_at := some 5,
        error_message := none, workflow_run_id := none } 10).job =
      { status := "failed", created_at := 0, completed_at := some 5,
        error_message := none, workflow_run_id := none } ∧
    sync_all_job_statuses
      [{ status := "failed", created_at := 0, completed_at := some 5,
         error_message := none, workflow_run_id := none }] 9999 =
      [{ status := "failed", created_at := 0, completed_at := some 5,
         error_message := none, workflow_run_id := none }] := by
  refine ⟨claim_C1_amended.1 _ "completed" none none 9 5 rfl,
         claim_C1_amended.2.2.2.1 _ 10 (by decide), ?_⟩
  have h := claim_C1_amended.2.2.2.2.2.1
    [{ status := "failed", created_at := 0, completed_at := some 5,
       error_message := none, workflow_run_id := none }] 9999
  cases h with
  | cons hj htail =>
    exact congrArg (fun j => [j]) (hj.1 (by decide))

/-! ## Claim C8: single-job sync endpoint -/

/-- C8: `sync_job_status` on a `started` job marks it completed and stamps
`completed_at` exactly when the job is strictly more than one hour old, and
leaves it untouched otherwise; a non-`started` job is reported unchanged. -/
theorem claim_C8_sync_job_status :
    (∀ (job : NewsJob) (now : Nat), job.status = "started" →
      job.created_at + 3600 < now →
      sync_job_status job now =
        ⟨{ job with status := "completed", completed_at := some now }, "completed",
          "Job marked as completed (was likely finished in Celery)"⟩) ∧
    (∀ (job : NewsJob) (now : Nat), job.status = "started" →
      ¬ job.created_at + 3600 < now →
      sync_job_status job now =
        ⟨job, job.status, "Job is recent, keeping current status"⟩) ∧
    (∀ (job : NewsJob) (now : Nat), job.status ≠ "started" →
      sync_job_status job now =
        ⟨job, job.status, "Job already completed or failed"⟩) := by
  refine ⟨?_, ?_, ?_⟩
  · intro job now hs hold
    simp [sync_job_status, hs, hold]
  · intro job now hs hyoung
    simp [sync_job_status, hs, hyoung]
  · intro job now hs
    simp [sync_job_status, hs]

/-- C8 witness: a job 61 minutes old (3660 s) is marked completed with the
stamp, one 59 minutes old (3540 s) is left `started`, and a `failed` job is
reported unchanged. -/
theorem claim_C8_sync_job_status_witness :
    sync_job_status
      { status := "started", created_at := 0, completed_at := none,
        error_message := none, workflow_run_id := none } 3660 =
      ⟨{ status := "completed", created_at := 0, completed_at := some 3660,
         error_message := none, workflow_run_id := none }, "completed",
        "Job marked as completed (was likely finished in Celery)"⟩ ∧
    sync_job_status
      { status := "started", created_at := 0, completed_at := none,
        error_message := none, workflow_run_id := none } 3540 =
      ⟨{ status := "started", created_at := 0, completed_at := none,
         error_message := none, workflow_run_id := none }, "started",
        "Job is recent, keeping current status"⟩ ∧
    sync_job_status
      { status := "failed", created_at := 0, completed_at := some 1,
        error_message := none, workflow_run_id := none } 3660 =
      ⟨{ status := "failed", created_at := 0, completed_at := some 1,
         error_message := none, workflow_run_id := none }, "failed",
        "Job already completed or failed"⟩ := by
  refine ⟨claim_C8_sync_job_status.1 _ 3660 rfl (by decide),
          claim_C8_sync_job_status.2.1 _ 3540 rfl (by decide),
          claim_C8_sync_job_status.2.2 _ 3660 (by decide)⟩

/-! ## Claim C7: workflow health label

Embeds the health computation of
`WorkflowStatusSync.get_workflow_health_status`
(src/app/services/workflow_status_sync.py).  Python float arithmetic is
modelled exactly over `Rat`; the thresholds 80 and 50 are not dyadic
boundary-sensitive for the ratio values involved.  -/

/-- `completed_jobs / total_jobs * 100`, 0 when there are no jobs. -/
def success_rate (completed total : Nat) : Rat :=
  if total > 0 then (completed : Rat) / (total : Rat) * 100 else 0

/-- The cascading health label: healthy, downgraded to degraded below 80%,
downgraded to unhealthy below 50% or with more than 10 started jobs. -/
def health_label (total completed started : Nat) : String :=
  let rate := success_rate completed total
  let h := "healthy"
  let h := if rate < 80 then "degraded" else h
  if rate < 50 ∨ started > 10 then "unhealthy" else h

/-- C7: the health label is `unhealthy` exactly when the success rate is
below 50% or more than 10 jobs are `started` (so more than 10 started jobs
force `unhealthy` regardless of the rate), `degraded` exactly when the rate
is below 80% and the system is not unhealthy, and `healthy` otherwise. -/
theorem claim_C7_health_label (total completed started : Nat) :
    (health_label total completed started = "unhealthy" ↔
      (success_rate completed total < 50 ∨ started > 10)) ∧
    (health_label total completed started = "degraded" ↔
      (success_rate completed total < 80 ∧
        ¬ (success_rate completed total < 50 ∨ started > 10))) ∧
    (health_label total completed started = "healthy" ↔
      (¬ success_rate completed total < 80 ∧ ¬ started > 10)) := by
  simp only [health_label]
  by_cases hu : success_rate completed total < 50 ∨ started > 10
  · have h80 : success_rate completed total < 80 ∨ started > 10 := by
      rcases hu with h | h
      · exact Or.inl (lt_trans h (by norm_num))
      · exact Or.inr h
    constructor
    · simp [hu]
    constructor
    · simp [hu]
    · constructor
      · intro h
        rw [if_pos hu] at h
        exact absurd h (by decide)
      · intro ⟨h1, h2⟩
        rcases hu with h | h
        · exact absurd (lt_trans h (by norm_num)) h1
        · exact absurd h h2
  · rw [if_neg hu]
    push_neg at hu
    by_cases hd : success_rate completed total < 80
    · rw [if_pos hd]
      refine ⟨⟨fun h => absurd h (by decide), fun h => absurd h (by simp [hu])⟩,
              ⟨fun _ => ⟨hd, by simp [hu]⟩, fun _ => rfl⟩,
              ⟨fun h => absurd h (by decide), fun ⟨h1, _⟩ => absurd hd h1⟩⟩
    · rw [if_neg hd]
      refine ⟨⟨fun h => absurd h (by decide), fun h => absurd h (by simp [hu])⟩,
              ⟨fun h => absurd h (by decide), fun ⟨h1, _⟩ => absurd h1 hd⟩,
              ⟨fun _ => ⟨hd, by simp [hu.2]⟩, fun _ => rfl⟩⟩

/-! ## Scraper agent: duplicate removal

Embeds `ScraperAgent._remove_duplicates`, `ScraperAgent._normalize_title`
and `ScraperAgent._is_duplicate_in_db` (src/app/agents/scraper_agent.py).
The database is a fixed list of existing `(url, title)` rows; SQL
`ILIKE '%pat%'` is modelled as case-insensitive substring containment. -/

/-- A candidate article record as the scraper handles it (`url`, `title`,
plus the payload fields irrelevant to deduplication, collapsed into
`content`). -/
structure ScrapedArticle where
  url : String
  title : String
  content : String
deriving DecidableEq

/-- An existing `news_articles` row as seen by the duplicate query. -/
structure DbArticle where
  url : String
  title : String
deriving DecidableEq

/-- Substring containment on character lists. -/
def listContainsSub (hay needle : List Char) : Bool :=
  if needle.isPrefixOf hay then true
  else
    match hay with
    | [] => false
    | _ :: t => listContainsSub t needle

/-- Python `\\w` for the ASCII data involved: alphanumeric or underscore. -/
def pyIsWordChar (c : Char) : Bool := c.isAlphanum || c = '_'

/-- `ScraperAgent._normalize_title`: lower-case, strip everything except
word characters and whitespace, collapse whitespace runs to single spaces,
truncate to 100 characters. -/
def normalize_title (title : String) : String :=
  let lowered := (pyLower title).data
  let kept := lowered.filter fun c => pyIsWordChar c || pyIsSpace c
  String.mk ((joinSpaceList (wordsGo [] kept)).take 100)

/-- `ScraperAgent._is_duplicate_in_db url title`: a row exists whose URL
matches exactly or whose title contains the first 50 characters of the
candidate title case-insensitively (`ILIKE '%title[:50]%'`). -/
def is_duplicate_in_db (db : List DbArticle) (url title : String) : Bool :=
  db.any fun row =>
    row.url == url ||
      listContainsSub (pyLower row.title).data (pyLower (pyTakeChars title 50)).data

/-- The loop of `_remove_duplicates`, carrying the `seen_urls` and
`seen_titles` sets (as lists). -/
def remove_duplicates_go (db : List DbArticle) :
    List ScrapedArticle → List String → List String → List ScrapedArticle
  | [], _, _ => []
  | a :: rest, seen_urls, seen_titles =>
    let url := pyLower (pyStrip a.url)
    let title := pyLower (pyStrip a.title)
    if seen_urls.contains url then
      remove_duplicates_go db rest seen_urls seen_titles
    else
      let title_normalized := normalize_title title
      if seen_titles.contains title_normalized then
        remove_duplicates_go db rest seen_urls seen_titles
      else if is_duplicate_in_db db url title then
        remove_duplicates_go db rest seen_urls seen_titles
      else
        a :: remove_duplicates_go db rest (url :: seen_urls) (title_normalized :: seen_titles)

/-- `ScraperAgent._remove_duplicates(articles)` against database `db`. -/
def remove_duplicates (db : List DbArticle) (articles : List ScrapedArticle) :
    List ScrapedArticle :=
  remove_duplicates_go db articles [] []

/-- The normalized (lower-cased, trimmed) URL used as the dedup key. -/
def dedupUrl (a : ScrapedArticle) : String := pyLower (pyStrip a.url)

/-! ## Claim C9: deduplication properties -/

/-- Re-running the dedup loop on its own output (with the same seen-sets and
database) changes nothing. -/
theorem remove_duplicates_go_idem (db : List DbArticle) (xs : List ScrapedArticle) :
    ∀ su st : List String,
      remove_duplicates_go db (remove_duplicates_go db xs su st) su st =
        remove_duplicates_go db xs su st := by
  induction xs with
  | nil => intro su st; rfl
  | cons a rest ih =>
    intro su st
    by_cases h1 : su.contains (pyLower (pyStrip a.url)) = true
    · rw [remove_duplicates_go]
      simp only [h1, if_true]
      exact ih su st
    · by_cases h2 : st.contains (normalize_title (pyLower (pyStrip a.title))) = true
      · rw [remove_duplicates_go]
        simp only [h1, h2, if_true, if_false, Bool.false_eq_true]
        exact ih su st
      · by_cases h3 :
          is_duplicate_in_db db (pyLower (pyStrip a.url)) (pyLower (pyStrip a.title)) = true
        · rw [remove_duplicates_go]
          simp only [h1, h2, h3, if_true, if_false, Bool.false_eq_true]
          exact ih su st
        · conv_rhs => rw [remove_duplicates_go]
          rw [remove_duplicates_go]
          simp only [h1, h2, h3, if_false, Bool.false_eq_true]
          rw [remove_duplicates_go]
          simp only [h1, h2, h3, if_false, Bool.false_eq_true]
          exact congrArg (a :: ·) (ih _ _)

/-- C9 helper: once the dedup URL `u` is among the seen URLs, no survivor of
the remaining loop carries it. -/
theorem remove_duplicates_go_url_seen (db : List DbArticle) (u : String)
    (xs : List ScrapedArticle) :
    ∀ su st : List String, su.contains u = true →
      ((remove_duplicates_go db xs su st).filter fun a => dedupUrl a == u).length = 0 := by
  induction xs with
  | nil =>
    intro su st _
    rfl
  | cons a rest ih =>
    intro su st hsu
    by_cases h1 : su.contains (pyLower (pyStrip a.url)) = true
    · rw [remove_duplicates_go]
      simp only [h1, if_true]
      exact ih su st hsu
    · by_cases h2 : st.contains (normalize_title (pyLower (pyStrip a.title))) = true
      · rw [remove_duplicates_go]
        simp only [h1, h2, if_true, if_false, Bool.false_eq_true]
        exact ih su st hsu
      · by_cases h3 :
          is_duplicate_in_db db (pyLower (pyStrip a.url)) (pyLower (pyStrip a.title)) = true
        · rw [remove_duplicates_go]
          simp only [h1, h2, h3, if_true, if_false, Bool.false_eq_true]
          exact ih su st hsu
        · rw [remove_duplicates_go]
          simp only [h1, h2, h3, if_false, Bool.false_eq_true]
          have hau : (dedupUrl a == u) = false := by
            refine beq_eq_false_iff_ne.mpr ?_
            intro hcontra
            rw [dedupUrl] at hcontra
            rw [hcontra] at h1
            exact h1 hsu
          have hmem : u ∈ su := by simpa using hsu
          have htail := ih (pyLower (pyStrip a.url) :: su)
            (normalize_title (pyLower (pyStrip a.title)) :: st)
            (by simp [List.contains_cons, hmem])
          simpa [List.filter_cons, hau] using htail

/-- C9 helper: at most one survivor of the dedup loop carries any given
dedup URL. -/
theorem remove_duplicates_go_url_once (db : List DbArticle) (u : String)
    (xs : List ScrapedArticle) :
    ∀ su st : List String,
      ((remove_duplicates_go db xs su st).filter fun a => dedupUrl a == u).length ≤ 1 := by
  induction xs with
  | nil =>
    intro su st
    norm_num [remove_duplicates_go]
  | cons a rest ih =>
    intro su st
    by_cases h1 : su.contains (pyLower (pyStrip a.url)) = true
    · rw [remove_duplicates_go]
      simp only [h1, if_true]
      exact ih su st
    · by_cases h2 : st.contains (normalize_title (pyLower (pyStrip a.title))) = true
      · rw [remove_duplicates_go]
        simp only [h1, h2, if_true, if_false, Bool.false_eq_true]
        exact ih su st
      · by_cases h3 :
          is_duplicate_in_db db (pyLower (pyStrip a.url)) (pyLower (pyStrip a.title)) = true
        · rw [remove_duplicates_go]
          simp only [h1, h2, h3, if_true, if_false, Bool.false_eq_true]
          exact ih su st
        · rw [remove_duplicates_go]
          simp only [h1, h2, h3, if_false, Bool.false_eq_true]
          by_cases hu : (dedupUrl a == u) = true
          · have hueq : pyLower (pyStrip a.url) = u := by
              have := beq_iff_eq.mp hu
              rw [dedupUrl] at this
              exact this
            have htail := remove_duplicates_go_url_seen db u rest
              (pyLower (pyStrip a.url) :: su)
              (normalize_title (pyLower (pyStrip a.title)) :: st)
              (by simp [List.contains_cons, hueq])
            simp only [List.filter_cons, hu, if_true, List.length_cons, htail]
            norm_num
          · have hau : (dedupUrl a == u) = false := by
              simpa using hu
            have htail := ih (pyLower (pyStrip a.url) :: su)
              (normalize_title (pyLower (pyStrip a.title)) :: st)
            simpa [List.filter_cons, hau] using htail

/-- C9 helper: with an empty database, a two-article batch whose URLs agree
after lower-casing and trimming keeps exactly the first article. -/
theorem remove_duplicates_pair (a b : ScrapedArticle) (h : dedupUrl a = dedupUrl b) :
    remove_duplicates [] [a, b] = [a] := by
  have hurl : pyLower (pyStrip b.url) = pyLower (pyStrip a.url) := by
    rw [dedupUrl, dedupUrl] at h
    exact h.symm
  simp [remove_duplicates, remove_duplicates_go, is_duplicate_in_db, List.contains_cons, hurl]

/-- C9: duplicate removal is idempotent for every database and input batch;
each dedup-URL occurs at most once among the survivors; and with an empty
database a batch of exactly two articles with the same lower-cased trimmed
URL keeps exactly the first. -/
theorem claim_C9_remove_duplicates :
    (∀ (db : List DbArticle) (articles : List ScrapedArticle),
      remove_duplicates db (remove_duplicates db articles) =
        remove_duplicates db articles) ∧
    (∀ (db : List DbArticle) (articles : List ScrapedArticle) (u : String),
      ((remove_duplicates db articles).filter fun a => dedupUrl a == u).length ≤ 1) ∧
    (∀ a b : ScrapedArticle, dedupUrl a = dedupUrl b →
      remove_duplicates [] [a, b] = [a]) := by
  refine ⟨?_, ?_, remove_duplicates_pair⟩
  · intro db articles
    exact remove_duplicates_go_idem db articles [] []
  · intro db articles u
    exact remove_duplicates_go_url_once db u articles [] []

/-- C9 witness: the theorem applied to two concrete articles whose URLs
differ only in casing, and to a concrete batch for the other conjuncts. -/
theorem claim_C9_witness :
    remove_duplicates []
      [⟨"HTTP://B.COM/2", "first title", "pb"⟩, ⟨"http://b.com/2", "second title", "pc"⟩] =
      [⟨"HTTP://B.COM/2", "first title", "pb"⟩] ∧
    remove_duplicates []
      (remove_duplicates [] [⟨"http://a.com", "t", "x"⟩]) =
      remove_duplicates [] [⟨"http://a.com", "t", "x"⟩] := by
  exact ⟨claim_C9_remove_duplicates.2.2 _ _ (by decide),
         claim_C9_remove_duplicates.1 [] _⟩

/-- C9 counterexample: the claim that *exactly one* of two same-URL articles
always survives is false: with a third article whose normalized title
collides with both, neither member of the URL pair survives. -/
theorem claim_C9_counterexample :
    dedupUrl ⟨"HTTP://B.COM/2", "Hello, world!", "pb"⟩ =
      dedupUrl ⟨"http://b.com/2", "hello ... world", "pc"⟩ ∧
    remove_duplicates []
      [⟨"http://a.com/1", "hello world", "pa"⟩,
       ⟨"HTTP://B.COM/2", "Hello, world!", "pb"⟩,
       ⟨"http://b.com/2", "hello ... world", "pc"⟩] =
      [⟨"http://a.com/1", "hello world", "pa"⟩] := by
  exact ⟨by decide, by decide⟩

/-! ## Scraper agent: RSS entry summary extraction

Embeds the summary-selection block of `ScraperAgent._extract_article_content`
(src/app/agents/scraper_agent.py, lines 213-228).  An RSS entry's missing
`summary`/`description` keys are modelled as `""` and a missing or empty
`content` list as `[]` (the code only tests their truthiness).
`BeautifulSoup(...).get_text(strip=True)` is modelled for the flat
tag/text structure involved: text fragments between `<...>` tag spans are
each stripped and concatenated.  -/

/-- The fields of a feed entry read by the summary-selection block. -/
structure RssEntry where
  title : String
  link : String
  summary : String
  description : String
  content : List String
deriving DecidableEq

/-- State machine collecting the text runs outside `<...>` tag spans:
` inTag` says whether we are inside a tag, `cur` is the reversed current
fragment. -/
def fragmentsGo ( inTag : Bool) (cur : List Char) : List Char → List (List Char)
  | [] => [cur.reverse]
  | c :: r =>
    if inTag then
      if c = '>' then fragmentsGo false cur r else fragmentsGo true cur r
    else
      if c = '<' then cur.reverse :: fragmentsGo true [] r
      else fragmentsGo false (c :: cur) r

/-- The text fragments of an HTML string: maximal runs outside `<...>`. -/
def textFragments (cs : List Char) : List (List Char) := fragmentsGo false [] cs

/-- `BeautifulSoup(s, 'html.parser').get_text(strip=True)`: each text
fragment stripped, all concatenated. -/
def get_text_strip (s : String) : String :=
  String.mk (((textFragments s.data).map stripList).flatten)

/-- The summary-selection block of `_extract_article_content`: the
parenthesized conditional expression
`(entry.get('summary','') or entry.get('description','') or
entry.get('content',[{}])[0].get('value','') if entry.get('content') else '')`
— by Python precedence the whole `or` chain is governed by
`if entry.get('content')` — followed by HTML stripping and the
under-50-characters replacement with `"Content available at: {url}"`. -/
def extract_entry_summary (entry : RssEntry) : String :=
  let url := pyStrip entry.link
  let raw :=
    if entry.content ≠ [] then
      if entry.summary ≠ "" then entry.summary
      else if entry.description ≠ "" then entry.description
      else entry.content.headD ""
    else ""
  let cleaned := if raw ≠ "" then get_text_strip raw else raw
  if cleaned = "" ∨ (pyStrip cleaned).data.length < 50 then
    "Content available at: " ++ url
  else cleaned

/-! ## Claim C3: entry summary selection -/

/-- C3 evaluation at the failing input: an entry with a 64-character plain
`summary`, an empty `description`, and no `content` key.  The claim says the
cleaned summary (64 ≥ 50 characters) is kept; the code's conditional
expression evaluates to `''` because the whole `or` chain is governed by
`if entry.get('content')`, so the placeholder is produced instead.  With the
same entry but a non-empty `content` list, the chain behaves as the claim
describes and the summary survives. -/
theorem claim_C3_code_eval :
    extract_entry_summary
      ⟨"T", "http://example.com/a",
        "OpenAI releases a new model that can reason about long documents",
        "", []⟩ =
      "Content available at: http://example.com/a" ∧
    extract_entry_summary
      ⟨"T", "http://example.com/a",
        "OpenAI releases a new model that can reason about long documents",
        "", ["x"]⟩ =
      "OpenAI releases a new model that can reason about long documents" := by
  exact ⟨by rfl, by rfl⟩

/-! ## Analyst agent: summary-id resolution and persistence

Embeds the id handling of `AnalystAgent._analyze_summary_with_semaphore`
(`summary_id = summary.get("id") or summary.get("db_id") or (index + 1)`)
and the persistence loop of `AnalystAgent._save_analyses`
(src/app/agents/analyst_agent.py).  The LLM analysis output is passed in as
data; identifiers are strings (UUIDs) with a numeric positional fallback,
so `summary_id` is a string-or-int union.  -/

/-- The `summary_id` value: a database identifier string or the positional
integer fallback. -/
inductive SummaryId where
  | s (v : String)
  | n (v : Nat)
deriving DecidableEq

/-- The fields of an input summary record read by the analyst;
`none` models a missing key and `some ""` a falsy present value. -/
structure SummaryInput where
  id : Option String
  db_id : Option String
  article_title : String
  article_url : String
deriving DecidableEq

/-- Python truthiness of an optional string. -/
def truthyS : Option String → Bool
  | none => false
  | some v => v ≠ ""

/-- `summary.get("id") or summary.get("db_id") or (index + 1)`. -/
def resolve_summary_id (summary : SummaryInput) (index : Nat) : SummaryId :=
  if truthyS summary.id then .s (summary.id.getD "")
  else if truthyS summary.db_id then .s (summary.db_id.getD "")
  else .n (index + 1)

/-- The analysis record built by `_analyze_summary_with_semaphore` on the
success path (the LLM result fields are inputs). -/
structure AnalysisData where
  summary_id : SummaryId
  analysis : String
  insights : List String
  impact_assessment : String
  processing_time : Nat
  article_title : String
  article_url : String
deriving DecidableEq

/-- `_analyze_summary_with_semaphore`, success path: packages the analysis
with the resolved summary id; no summary is ever dropped for lacking one. -/
def analyze_summary_record (index : Nat) (summary : SummaryInput)
    (analysis : String) (insights : List String) (impact_assessment : String)
    (processing_time : Nat) : AnalysisData :=
  { summary_id := resolve_summary_id summary index
    analysis := analysis
    insights := insights
    impact_assessment := impact_assessment
    processing_time := processing_time
    article_title := summary.article_title
    article_url := summary.article_url }

/-- A persisted `news_analyses` row. -/
structure NewsAnalysisRow where
  job_id : String
  summary_ids : List SummaryId
  analysis : String
  insights : List String
  impact_assessment : String
  processing_time : Nat
  created_at : Nat
deriving DecidableEq

/-- `AnalystAgent._save_analyses`: inserts one row per record, each with the
one-element `summary_ids` list; no record is filtered out. -/
def save_analyses (job_id : String) (now : Nat)
    (analyses : List AnalysisData) : List NewsAnalysisRow :=
  analyses.map fun d =>
    { job_id := job_id
      summary_ids := [d.summary_id]
      analysis := d.analysis
      insights := d.insights
      impact_assessment := d.impact_assessment
      processing_time := d.processing_time
      created_at := now }

/-! ## Claim C4: analyses for id-less summaries -/

/-- C4 counterexample: a summary with no `id` and no `db_id` at index 0 is
not dropped: its analysis record carries the positional placeholder `1`
as `summary_id` and `_save_analyses` persists it. -/
theorem claim_C4_counterexample :
    (analyze_summary_record 0 ⟨none, none, "t", "u"⟩ "a" ["i"] "imp" 2).summary_id =
      .n 1 ∧
    save_analyses "job" 9
      [analyze_summary_record 0 ⟨none, none, "t", "u"⟩ "a" ["i"] "imp" 2] =
      [{ job_id := "job", summary_ids := [.n 1], analysis := "a", insights := ["i"],
         impact_assessment := "imp", processing_time := 2, created_at := 9 }] := by
  exact ⟨rfl, rfl⟩

/-- C4 amended: a summary lacking a truthy `id` and `db_id` is assigned the
positional placeholder `index + 1` as its summary id (a truthy `id`, else a
truthy `db_id`, wins otherwise), and `_save_analyses` persists every produced
record — placeholder ids included — as a row whose `summary_ids` is the
one-element list of that id. -/
theorem claim_C4_amended :
    (∀ (index : Nat) (summary : SummaryInput)
      (analysis : String) (insights : List String) (impact : String) (pt : Nat),
      ¬ truthyS summary.id = true → ¬ truthyS summary.db_id = true →
      (analyze_summary_record index summary analysis insights impact pt).summary_id =
        .n (index + 1)) ∧
    (∀ (job_id : String) (now : Nat) (analyses : List AnalysisData),
      (save_analyses job_id now analyses).length = analyses.length ∧
      ∀ d ∈ analyses,
        { job_id := job_id, summary_ids := [d.summary_id], analysis := d.analysis,
          insights := d.insights, impact_assessment := d.impact_assessment,
          processing_time := d.processing_time,
          created_at := now : NewsAnalysisRow } ∈ save_analyses job_id now analyses) := by
  constructor
  · intro index summary analysis insights impact pt hid hdb
    simp [analyze_summary_record, resolve_summary_id, hid, hdb]
  · intro job_id now analyses
    constructor
    · simp [save_analyses]
    · intro d hd
      simp only [save_analyses, List.mem_map]
      exact ⟨d, hd, rfl⟩

/-- C4 amended, witness: the amended theorem applied to a concrete id-less
summary and a concrete batch. -/
theorem claim_C4_amended_witness :
    (analyze_summary_record 3 ⟨some "", none, "t", "u"⟩ "a" [] "imp" 0).summary_id =
      .n 4 ∧
    (save_analyses "j" 1 [⟨.n 4, "a", [], "imp", 0, "t", "u"⟩]).length = 1 ∧
    ({ job_id := "j", summary_ids := [.n 4], analysis := "a", insights := [],
       impact_assessment := "imp", processing_time := 0,
       created_at := 1 : NewsAnalysisRow }) ∈
      save_analyses "j" 1 [⟨.n 4, "a", [], "imp", 0, "t", "u"⟩] := by
  refine ⟨claim_C4_amended.1 3 ⟨some "", none, "t", "u"⟩ "a" [] "imp" 0
      (by decide) (by decide),
    (claim_C4_amended.2 "j" 1 [⟨.n 4, "a", [], "imp", 0, "t", "u"⟩]).1,
    (claim_C4_amended.2 "j" 1 [⟨.n 4, "a", [], "imp", 0, "t", "u"⟩]).2
      (⟨.n 4, "a", [], "imp", 0, "t", "u"⟩ : AnalysisData) (by decide)⟩

/-! ## Timeline endpoint

Embeds the item assembly of `get_news_timeline` (src/app/main.py):
the article query (date-window filter on published-else-scraped time,
ordered by published time descending nulls-last then scraped time
descending, limited to `limit/2`), the article timeline entries, the
summary query (inner join to articles, same window, limited to `limit`),
the URL-deduplicated news-item map, and the final sort and limit
truncation.  Timestamps are
naturals; the `isoformat()` strings the code sorts are order-isomorphic
to them.  -/

/-- A `news_articles` row as read by the timeline endpoint. -/
structure ArticleRow where
  id : Nat
  title : String
  content : String
  url : String
  source : String
  published_at : Option Nat
  scraped_at : Nat
deriving DecidableEq

/-- A `news_summaries` row joined with its article. -/
structure SummaryRow where
  id : Nat
  article : Option ArticleRow
  summary : String
  bullet_points : List String
  created_at : Nat
deriving DecidableEq

/-- A `news_analyses` row as read by the timeline endpoint. -/
structure AnalysisRow where
  summary_ids : List Nat
  insights : List String
  impact_assessment : Option String
deriving DecidableEq

/-- A timeline response item. -/
inductive TimelineItem where
  | article (id : Nat) (timestamp : Nat) (title content url source : String)
  | news_item (id : Nat) (timestamp : Nat) (title summary url source : String)
      (bullet_points insights : List String) (impact_assessment : Option String)
deriving DecidableEq

/-- The date-window filter: `published_at` within the day when present,
else `scraped_at` within the day. -/
def articleInWindow (a : ArticleRow) (start_of_day end_of_day : Nat) : Bool :=
  match a.published_at with
  | some p => start_of_day ≤ p && p < end_of_day
  | none => start_of_day ≤ a.scraped_at && a.scraped_at < end_of_day

/-- Stable insertion sort by a weak "comes no later than" Boolean relation
(Python's stable `sort`). -/
def insertBy (le : α → α → Bool) (x : α) : List α → List α
  | [] => [x]
  | y :: ys => if le x y then x :: y :: ys else y :: insertBy le x ys

/-- Stable sort: fold `insertBy` from the right. -/
def sortBy (le : α → α → Bool) (xs : List α) : List α :=
  xs.foldr (insertBy le) []

/-- SQL `ORDER BY published_at DESC NULLS LAST, scraped_at DESC`. -/
def articleOrd (a b : ArticleRow) : Bool :=
  match a.published_at, b.published_at with
  | some pa, some pb => if pa = pb then b.scraped_at ≤ a.scraped_at else pb ≤ pa
  | some _, none => true
  | none, some _ => false
  | none, none => b.scraped_at ≤ a.scraped_at

/-- SQL `ORDER BY article.published_at DESC NULLS LAST, summary.created_at
DESC` for the joined summary query. -/
def summaryOrd (x y : SummaryRow) : Bool :=
  match (x.article.map ArticleRow.published_at).join,
        (y.article.map ArticleRow.published_at).join with
  | some pa, some pb => if pa = pb then y.created_at ≤ x.created_at else pb ≤ pa
  | some _, none => true
  | none, some _ => false
  | none, none => y.created_at ≤ x.created_at

/-- The display timestamp: `published_at` when present, else `scraped_at`. -/
def displayTimestamp (a : ArticleRow) : Nat := a.published_at.getD a.scraped_at

/-- The article timeline entry (content truncated at 500 characters with an
ellipsis suffix). -/
def mk_article_item (a : ArticleRow) : TimelineItem :=
  .article a.id (displayTimestamp a) a.title
    (if a.content.data.length > 500 then pyTakeChars a.content 500 ++ "..." else a.content)
    a.url a.source

/-- The joined news item for a summary and its article, with the first
analysis row whose `summary_ids` mentions the summary. -/
def mk_news_item (analyses : List AnalysisRow) (s : SummaryRow) (a : ArticleRow) :
    TimelineItem :=
  let analysis := analyses.find? fun an => an.summary_ids.contains s.id
  .news_item a.id (displayTimestamp a) a.title s.summary a.url a.source
    s.bullet_points
    (match analysis with
     | some an => if an.insights ≠ [] then an.insights else []
     | none => [])
    (match analysis with
     | some an => an.impact_assessment
     | none => none)

/-- The `news_items_map` loop: keyed by article URL, first summary wins,
insertion order preserved. -/
def buildNewsMap (analyses : List AnalysisRow) :
    List SummaryRow → List (String × TimelineItem) → List (String × TimelineItem)
  | [], m => m
  | s :: rest, m =>
    match s.article with
    | none => buildNewsMap analyses rest m
    | some a =>
      if (m.map Prod.fst).contains a.url then buildNewsMap analyses rest m
      else buildNewsMap analyses rest (m ++ [(a.url, mk_news_item analyses s a)])

/-- A timeline item's sort timestamp. -/
def itemTimestamp : TimelineItem → Nat
  | .article _ ts _ _ _ _ => ts
  | .news_item _ ts _ _ _ _ _ _ _ => ts

/-- `get_news_timeline`'s `items` assembly: the article entries are built
into `timeline_items` first, but the later
`timeline_items = list(news_items_map.values())` rebinding replaces them, so
the returned list is the sorted news items alone, truncated to `limit`. -/
def get_news_timeline_items (articles : List ArticleRow) (summaries : List SummaryRow)
    (analyses : List AnalysisRow) (limit : Nat) (start_of_day end_of_day : Nat) :
    List TimelineItem :=
  let articlesQ := (sortBy articleOrd
    (articles.filter fun a => articleInWindow a start_of_day end_of_day)).take (limit / 2)
  let timeline_items := articlesQ.map mk_article_item
  let summariesQ := (sortBy summaryOrd
    (summaries.filter fun s =>
      match s.article with
      | some a => articleInWindow a start_of_day end_of_day
      | none => false)).take limit
  let news_items_map := buildNewsMap analyses summariesQ []
  let timeline_items :=
    sortBy (fun x y => itemTimestamp y ≤ itemTimestamp x) (news_items_map.map Prod.snd)
  timeline_items.take limit

/-! ## Claim C2: merged timeline -/

/-- C2 evaluation at the failing input: one article inside the date window
and no summaries.  The claim says the items list merges article entries with
the news items, so the article entry should appear; the code's rebinding of
`timeline_items` discards the article entries and returns an empty list. -/
theorem claim_C2_code_eval :
    get_news_timeline_items
      [{ id := 1, title := "T", content := "body", url := "http://a.com/x",
         source := "A", published_at := some 100, scraped_at := 90 }] [] [] 20 0 1000 =
      [] ∧
    mk_article_item
      { id := 1, title := "T", content := "body", url := "http://a.com/x",
        source := "A", published_at := some 100, scraped_at := 90 } =
      .article 1 100 "T" "body" "http://a.com/x" "A" := by
  exact ⟨rfl, rfl⟩

/-! ## Config manager: JSON storage

Embeds `ConfigManager.set_config` / `ConfigManager.get_config`
(src/app/services/config_manager.py).  The Python values passed to
`set_config` are the JSON-serializable ones; they are modelled by the
mutual inductive `PyVal` (numbers as integers — the persisted settings are
ints, bools and strings; floats do not occur).  `json.dumps` is modelled
with its default separators and with escaping of `"` and `\\` (the only
escapes the stored data can need); `json.loads` is a fuelled
recursive-descent parser over the same grammar.  -/

mutual
/-- A JSON-serializable Python value. -/
inductive PyVal where
  | pyNone
  | pyBool (b : Bool)
  | pyInt (n : Int)
  | pyStr (s : String)
  | pyList (elems : PyItems)
  | pyDict (members : PyPairs)

/-- The elements of a JSON array (a Python list). -/
inductive PyItems where
  | nil
  | cons (hd : PyVal) (tl : PyItems)

/-- The members of a JSON object (a Python dict, insertion-ordered). -/
inductive PyPairs where
  | nil
  | cons (key : String) (val : PyVal) (tl : PyPairs)
end

/-- Whether a value is a Python string (`isinstance(value, str)`). -/
def PyVal.isStr : PyVal → Bool
  | .pyStr _ => true
  | _ => false

/-- Decimal digit character for `d < 10`. -/
def digitChar (d : Nat) : Char := Char.ofNat (48 + d)

/-- Fuelled most-significant-first decimal digits accumulator. -/
def natDigitsGo : Nat → Nat → List Char → List Char
  | 0, _, acc => acc
  | fuel+1, n, acc =>
    if n < 10 then digitChar n :: acc
    else natDigitsGo fuel (n / 10) (digitChar (n % 10) :: acc)

/-- Decimal digits of a natural number. -/
def natDigits (n : Nat) : List Char := natDigitsGo (n + 1) n []

/-- Decimal representation of an integer. -/
def printInt (n : Int) : List Char :=
  if n < 0 then '-' :: natDigits (-n).toNat else natDigits n.toNat

/-- JSON string escaping of one character (`"` and `\\`). -/
def escChar (c : Char) : List Char :=
  if c = '"' then ['\\', '"'] else if c = '\\' then ['\\', '\\'] else [c]

/-- JSON string escaping. -/
def escapeChars (cs : List Char) : List Char := (cs.map escChar).flatten

mutual
/-- `json.dumps` (default separators), character-list form. -/
def printJson : PyVal → List Char
  | .pyNone => ['n', 'u', 'l', 'l']
  | .pyBool true => ['t', 'r', 'u', 'e']
  | .pyBool false => ['f', 'a', 'l', 's', 'e']
  | .pyInt n => printInt n
  | .pyStr s => '"' :: (escapeChars s.data ++ ['"'])
  | .pyList es => '[' :: (printElems es ++ [']'])
  | .pyDict ms => '\x7b' :: (printMembers ms ++ ['\x7d'])

/-- Array elements joined by `", "`. -/
def printElems : PyItems → List Char
  | .nil => []
  | .cons e .nil => printJson e
  | .cons e es => printJson e ++ ',' :: ' ' :: printElems es

/-- Object members `"key": value` joined by `", "`. -/
def printMembers : PyPairs → List Char
  | .nil => []
  | .cons k v .nil => '"' :: (escapeChars k.data ++ ['"', ':', ' ']) ++ printJson v
  | .cons k v ms =>
    '"' :: (escapeChars k.data ++ ['"', ':', ' ']) ++ printJson v ++
      ',' :: ' ' :: printMembers ms
end

mutual
/-- Parser-fuel weight of a value: nesting depth-like, dominated by the
printed length. -/
def jweight : PyVal → Nat
  | .pyNone => 1
  | .pyBool _ => 1
  | .pyInt _ => 1
  | .pyStr _ => 1
  | .pyList es => 1 + eweight es
  | .pyDict ms => 1 + mweight ms

/-- Weight of array elements. -/
def eweight : PyItems → Nat
  | .nil => 1
  | .cons e es => 1 + max (jweight e) (eweight es)

/-- Weight of object members. -/
def mweight : PyPairs → Nat
  | .nil => 1
  | .cons _ v ms => 1 + max (jweight v) (mweight ms)
end

/-- JSON whitespace. -/
def jsonWs (c : Char) : Bool := c = ' ' || c = '\t' || c = '\n' || c = '\r'

/-- Skip JSON whitespace. -/
def skipWs (cs : List Char) : List Char := cs.dropWhile jsonWs

/-- Unescape one backslash escape. -/
def unescChar (c : Char) : Option Char :=
  if c = '"' then some '"'
  else if c = '\\' then some '\\'
  else if c = '/' then some '/'
  else if c = 'n' then some '\n'
  else if c = 't' then some '\t'
  else if c = 'r' then some '\r'
  else if c = 'b' then some '\x08'
  else if c = 'f' then some '\x0c'
  else none

/-- Parse the body of a JSON string up to the closing quote. -/
def parseStrChars : List Char → Option (List Char × List Char)
  | [] => none
  | '\\' :: rest =>
    match rest with
    | [] => none
    | e :: rest' =>
      match unescChar e with
      | some u =>
        match parseStrChars rest' with
        | some (s, r) => some (u :: s, r)
        | none => none
      | none => none
  | c :: rest =>
    if c = '"' then some ([], rest)
    else
      match parseStrChars rest with
      | some (s, r) => some (c :: s, r)
      | none => none

/-- Accumulate the value of a digit run. -/
def natFromDigits (ds : List Char) : Nat :=
  ds.foldl (fun a c => a * 10 + (c.toNat - 48)) 0

/-- Parse a JSON number (integer grammar: optional minus, digit run). -/
def parseNumber (cs : List Char) : Option (PyVal × List Char) :=
  match cs with
  | [] => none
  | c :: rest =>
    if c = '-' then
      let ds := rest.takeWhile Char.isDigit
      if ds.isEmpty then none
      else some (.pyInt (-(natFromDigits ds : Int)), rest.dropWhile Char.isDigit)
    else
      let ds := (c :: rest).takeWhile Char.isDigit
      if ds.isEmpty then none
      else some (.pyInt ((natFromDigits ds : Int)), (c :: rest).dropWhile Char.isDigit)

mutual
/-- Fuelled recursive-descent parser for one JSON value. -/
def parseVal : Nat → List Char → Option (PyVal × List Char)
  | 0, _ => none
  | fuel+1, cs =>
    match skipWs cs with
    | [] => none
    | c :: rest =>
      if c = 'n' then
        match rest with
        | 'u' :: 'l' :: 'l' :: r => some (.pyNone, r)
        | _ => none
      else if c = 't' then
        match rest with
        | 'r' :: 'u' :: 'e' :: r => some (.pyBool true, r)
        | _ => none
      else if c = 'f' then
        match rest with
        | 'a' :: 'l' :: 's' :: 'e' :: r => some (.pyBool false, r)
        | _ => none
      else if c = '"' then
        match parseStrChars rest with
        | some (s, r) => some (.pyStr (String.mk s), r)
        | none => none
      else if c = '[' then
        match skipWs rest with
        | ']' :: r => some (.pyList .nil, r)
        | rest' =>
          match parseElems fuel rest' with
          | some (es, r) => some (.pyList es, r)
          | none => none
      else if c = '\x7b' then
        match skipWs rest with
        | '\x7d' :: r => some (.pyDict .nil, r)
        | rest' =>
          match parseMembers fuel rest' with
          | some (ms, r) => some (.pyDict ms, r)
          | none => none
      else parseNumber (c :: rest)

/-- Fuelled parser for `value (',' value)* ']'` inside an array. -/
def parseElems : Nat → List Char → Option (PyItems × List Char)
  | 0, _ => none
  | fuel+1, cs =>
    match parseVal fuel cs with
    | some (v, rest) =>
      match skipWs rest with
      | ',' :: r =>
        match parseElems fuel (skipWs r) with
        | some (es, r') => some (.cons v es, r')
        | none => none
      | ']' :: r => some (.cons v .nil, r)
      | _ => none
    | none => none

/-- Fuelled parser for `'"' key '"' ':' value (',' ...)* '\x7d'` inside an
object. -/
def parseMembers : Nat → List Char → Option (PyPairs × List Char)
  | 0, _ => none
  | fuel+1, cs =>
    match skipWs cs with
    | '"' :: rest =>
      match parseStrChars rest with
      | some (k, r1) =>
        match skipWs r1 with
        | ':' :: r2 =>
          match parseVal fuel r2 with
          | some (v, r3) =>
            match skipWs r3 with
            | ',' :: r4 =>
              match parseMembers fuel r4 with
              | some (ms, r5) => some (.cons (String.mk k) v ms, r5)
              | none => none
            | '\x7d' :: r4 => some (.cons (String.mk k) v .nil, r4)
            | _ => none
          | none => none
        | _ => none
      | none => none
    | _ => none
end

/-- `json.dumps(value)`. -/
def json_dumps (v : PyVal) : String := String.mk (printJson v)

/-- `json.loads(s)`: parse one value, require only whitespace after it. -/
def json_loads (s : String) : Option PyVal :=
  match parseVal (s.data.length + 1) s.data with
  | some (v, rest) => if skipWs rest = [] then some v else none
  | none => none

/-- `ConfigManager.set_config`: the stored string —
`json.dumps(value) if not isinstance(value, str) else value`. -/
def set_config_value (value : PyVal) : String :=
  match value with
  | .pyStr s => s
  | v => json_dumps v

/-- `ConfigManager.get_config` on a present row: `json.loads` of the stored
string, falling back to the raw string on a decode error. -/
def get_config_value (stored : String) : PyVal :=
  match json_loads stored with
  | some j => j
  | none => .pyStr stored

/-! ## Claim C10: digit printing and reading lemmas -/

/-- Facts about a decimal digit character needed by the parser proofs. -/
theorem digitChar_facts (d : Nat) (h : d < 10) :
    (digitChar d).isDigit = true ∧ (digitChar d).toNat - 48 = d ∧
    jsonWs (digitChar d) = false ∧ digitChar d ≠ 'n' ∧ digitChar d ≠ 't' ∧
    digitChar d ≠ 'f' ∧ digitChar d ≠ '"' ∧ digitChar d ≠ '[' ∧
    digitChar d ≠ '\x7b' ∧ digitChar d ≠ '-' := by
  interval_cases d <;> decide

/-- The digit accumulator appends to its accumulator. -/
theorem natDigitsGo_acc (fuel : Nat) :
    ∀ (n : Nat) (acc : List Char),
      natDigitsGo fuel n acc = natDigitsGo fuel n [] ++ acc := by
  induction fuel with
  | zero => intro n acc; rfl
  | succ fuel ih =>
    intro n acc
    rw [natDigitsGo, natDigitsGo]
    split
    · rfl
    · rw [ih (n / 10) (digitChar (n % 10) :: acc), ih (n / 10) [digitChar (n % 10)]]
      simp

/-- Every emitted character is a decimal digit. -/
theorem natDigitsGo_digits (fuel : Nat) :
    ∀ n : Nat, n < fuel → ∀ c ∈ natDigitsGo fuel n [], c.isDigit = true := by
  induction fuel with
  | zero => intro n h; omega
  | succ fuel ih =>
    intro n h c hc
    rw [natDigitsGo] at hc
    split at hc
    · rename_i hlt
      simp only [List.mem_singleton] at hc
      exact hc ▸ (digitChar_facts n hlt).1
    · rename_i hge
      rw [natDigitsGo_acc] at hc
      rcases List.mem_append.mp hc with hc | hc
      · exact ih (n / 10) (by omega) c hc
      · have : c = digitChar (n % 10) := by simpa using hc
        exact this ▸ (digitChar_facts (n % 10) (Nat.mod_lt n (by norm_num))).1

/-- The emitted digits are non-empty and start with a digit below ten. -/
theorem natDigitsGo_shape (fuel : Nat) :
    ∀ n : Nat, n < fuel →
      ∃ d ds, natDigitsGo fuel n [] = digitChar d :: ds ∧ d < 10 := by
  induction fuel with
  | zero => intro n h; omega
  | succ fuel ih =>
    intro n h
    rw [natDigitsGo]
    split
    · rename_i hlt
      exact ⟨n, [], rfl, hlt⟩
    · rename_i hge
      obtain ⟨d, ds, hds, hd⟩ := ih (n / 10) (by omega)
      rw [natDigitsGo_acc, hds]
      exact ⟨d, ds ++ [digitChar (n % 10)], rfl, hd⟩

/-- Reading the emitted digits back yields the number. -/
theorem natDigitsGo_readback (fuel : Nat) :
    ∀ n : Nat, n < fuel → natFromDigits (natDigitsGo fuel n []) = n := by
  induction fuel with
  | zero => intro n h; omega
  | succ fuel ih =>
    intro n h
    rw [natDigitsGo]
    split
    · rename_i hlt
      simp [natFromDigits, List.foldl, (digitChar_facts n hlt).2.1]
    · rename_i hge
      rw [natDigitsGo_acc]
      have hdiv : n / 10 < fuel := by omega
      have := ih (n / 10) hdiv
      simp only [natFromDigits, List.foldl_append] at *
      rw [this]
      simp [List.foldl, (digitChar_facts (n % 10) (Nat.mod_lt n (by norm_num))).2.1]
      omega

/-- What may legally follow a printed value: end of input or a structural
delimiter (never a digit or whitespace). -/
def goodTail : List Char → Prop
  | [] => True
  | c :: _ => c = ',' ∨ c = ']' ∨ c = '\x7d'

/-- `takeWhile`/`dropWhile` split around an all-satisfying prefix followed
by a non-satisfying (or empty) remainder. -/
theorem takeWhile_dropWhile_split (p : Char → Bool) :
    ∀ (ds rest : List Char), (∀ c ∈ ds, p c = true) →
      (∀ c cs', rest = c :: cs' → p c = false) →
      (ds ++ rest).takeWhile p = ds ∧ (ds ++ rest).dropWhile p = rest := by
  intro ds rest hall hrest
  induction ds with
  | nil =>
    simp only [List.nil_append]
    cases rest with
    | nil => exact ⟨rfl, rfl⟩
    | cons c cs' =>
      rw [List.takeWhile_cons, List.dropWhile_cons, hrest c cs' rfl]
      exact ⟨rfl, rfl⟩
  | cons d ds' ih =>
    have hd := hall d (List.mem_cons_self d ds')
    have hrec := ih fun c hc => hall c (List.mem_cons_of_mem d hc)
    simp [List.cons_append, List.takeWhile_cons, List.dropWhile_cons, hd, hrec.1, hrec.2]

/-- A good tail never starts with a digit. -/
theorem goodTail_not_digit (rest : List Char) (h : goodTail rest) :
    ∀ c cs', rest = c :: cs' → c.isDigit = false := by
  intro c cs' hrest
  rw [hrest] at h
  rcases h with h | h | h <;> rw [h] <;> decide

/-- The decimal digits of `n` are non-empty, all digits, and readable back. -/
theorem natDigits_spec (n : Nat) :
    (∀ c ∈ natDigits n, c.isDigit = true) ∧ natFromDigits (natDigits n) = n ∧
      ∃ d ds, natDigits n = digitChar d :: ds ∧ d < 10 := by
  refine ⟨natDigitsGo_digits (n + 1) n (Nat.lt_succ_self n), ?_, ?_⟩
  · exact natDigitsGo_readback (n + 1) n (Nat.lt_succ_self n)
  · exact natDigitsGo_shape (n + 1) n (Nat.lt_succ_self n)

/-- Parsing the printed digits of `n` (with a good tail) recovers `n`. -/
theorem parseNumber_natDigits (n : Nat) (rest : List Char) (h : goodTail rest) :
    parseNumber (natDigits n ++ rest) = some (.pyInt (n : Int), rest) := by
  obtain ⟨hdig, hread, d, ds, hshape, hd⟩ := natDigits_spec n
  have hsplit := takeWhile_dropWhile_split Char.isDigit (natDigits n) rest hdig
    (goodTail_not_digit rest h)
  rw [hshape] at hsplit ⊢
  rw [List.cons_append]
  simp only [parseNumber]
  rw [if_neg (digitChar_facts d hd).2.2.2.2.2.2.2.2.2]
  rw [← List.cons_append, hsplit.1, hsplit.2]
  simp only [List.isEmpty_cons, Bool.false_eq_true, if_false]
  rw [← hshape, hread]

/-- Parsing a printed integer (with a good tail) recovers it. -/
theorem parseNumber_printInt (n : Int) (rest : List Char) (h : goodTail rest) :
    parseNumber (printInt n ++ rest) = some (.pyInt n, rest) := by
  rw [printInt]
  split
  · rename_i hneg
    obtain ⟨hdig, hread, d, ds, hshape, hd⟩ := natDigits_spec (-n).toNat
    have hsplit := takeWhile_dropWhile_split Char.isDigit (natDigits (-n).toNat) rest hdig
      (goodTail_not_digit rest h)
    rw [List.cons_append]
    simp only [parseNumber, if_true]
    rw [hsplit.1, hsplit.2]
    rw [hshape]
    simp only [List.isEmpty_cons, Bool.false_eq_true, if_false]
    rw [← hshape, hread]
    have hcast : (((-n).toNat : Nat) : Int) = -n := Int.toNat_of_nonneg (by omega)
    rw [hcast, neg_neg]
  · rename_i hnonneg
    have hcast : ((n.toNat : Nat) : Int) = n := Int.toNat_of_nonneg (by omega)
    rw [parseNumber_natDigits n.toNat rest h, hcast]

/-- Rebuilding a string from its characters is the identity. -/
theorem string_mk_data : ∀ s : String, String.mk s.data = s
  | ⟨_⟩ => rfl

/-- Delimiter facts about a digit character. -/
theorem digitChar_notDelim (d : Nat) (h : d < 10) :
    digitChar d ≠ ']' ∧ digitChar d ≠ ',' ∧ digitChar d ≠ '\x7d' := by
  interval_cases d <;> decide

/-- Skipping whitespace leaves a non-whitespace-headed list unchanged. -/
theorem skipWs_cons_no (c : Char) (h : jsonWs c = false) (cs : List Char) :
    skipWs (c :: cs) = c :: cs := by
  rw [skipWs, List.dropWhile_cons, h]
  simp

/-- Skipping whitespace eats a whitespace head. -/
theorem skipWs_cons_yes (c : Char) (h : jsonWs c = true) (cs : List Char) :
    skipWs (c :: cs) = skipWs cs := by
  rw [skipWs, List.dropWhile_cons, h]
  rfl

/-- Parsing the escaped body of a string (closed by `'"'`) recovers it. -/
theorem parseStrChars_escape :
    ∀ (s rest : List Char), parseStrChars (escapeChars s ++ '"' :: rest) = some (s, rest)
  | [], rest => by
    simp [escapeChars, parseStrChars]
  | c :: s', rest => by
    have ihf := parseStrChars_escape s' rest
    have ih : parseStrChars ((List.map escChar s').flatten ++ '"' :: rest) =
        some (s', rest) := ihf
    by_cases h1 : c = '"'
    · subst h1
      simp [escapeChars, escChar, parseStrChars, unescChar, ih]
    · by_cases h2 : c = '\\'
      · subst h2
        simp [escapeChars, escChar, parseStrChars, unescChar, ih]
      · have hesc : escapeChars (c :: s') = c :: escapeChars s' := by
          simp [escapeChars, escChar, h1, h2]
        rw [hesc, List.cons_append]
        rw [parseStrChars.eq_def]
        split
        · rename_i heq
          simp at heq
        · rename_i e rest' heq
          rw [List.cons.injEq] at heq
          exact absurd heq.1 h2
        · rename_i c' rest' hne heq
          rw [List.cons.injEq] at heq
          obtain ⟨hc, hr⟩ := heq
          subst hc
          rw [if_neg h1, ← hr, ihf]

/-- The head of a printed value is non-whitespace and not a delimiter. -/
theorem printJson_head (v : PyVal) :
    ∃ c cs, printJson v = c :: cs ∧ jsonWs c = false ∧ c ≠ ']' ∧ c ≠ ',' ∧
      c ≠ '\x7d' := by
  cases v with
  | pyNone => exact ⟨'n', _, rfl, by decide⟩
  | pyBool b =>
    cases b with
    | true => exact ⟨'t', _, rfl, by decide⟩
    | false => exact ⟨'f', _, rfl, by decide⟩
  | pyInt n =>
    rw [printJson, printInt]
    split
    · exact ⟨'-', _, rfl, by decide⟩
    · obtain ⟨_, _, d, ds, hshape, hd⟩ := natDigits_spec n.toNat
      obtain ⟨hne1, hne2, hne3⟩ := digitChar_notDelim d hd
      exact ⟨digitChar d, ds, hshape, (digitChar_facts d hd).2.2.1, hne1, hne2, hne3⟩
  | pyStr s => exact ⟨'"', _, rfl, by decide⟩
  | pyList es => exact ⟨'[', _, rfl, by decide⟩
  | pyDict ms => exact ⟨'\x7b', _, rfl, by decide⟩

/-- The head of a non-empty printed element list is the head of its first
printed value. -/
theorem printElems_head (es : PyItems) (h : es ≠ .nil) :
    ∃ c cs, printElems es = c :: cs ∧ jsonWs c = false ∧ c ≠ ']' ∧ c ≠ ',' ∧
      c ≠ '\x7d' := by
  cases es with
  | nil => exact absurd rfl h
  | cons e tail =>
    obtain ⟨c, cs, hpr, hws, h1, h2, h3⟩ := printJson_head e
    cases tail with
    | nil => exact ⟨c, cs, by rw [printElems, hpr], hws, h1, h2, h3⟩
    | cons e' tail' =>
      refine ⟨c, cs ++ ',' :: ' ' :: printElems (.cons e' tail'), ?_, hws, h1, h2, h3⟩
      rw [printElems]
      · rw [hpr, List.cons_append]
      · exact fun hh => PyItems.noConfusion hh

/-- A non-empty printed member list starts with a quote. -/
theorem printMembers_head (ms : PyPairs) (h : ms ≠ .nil) :
    ∃ cs, printMembers ms = '"' :: cs := by
  cases ms with
  | nil => exact absurd rfl h
  | cons k v tail =>
    cases tail with
    | nil =>
      refine ⟨escapeChars k.data ++ ['"', ':', ' '] ++ printJson v, ?_⟩
      rw [printMembers]
      simp [List.cons_append]
    | cons k' v' tail' =>
      refine ⟨escapeChars k.data ++ ['"', ':', ' '] ++ printJson v ++
        ',' :: ' ' :: printMembers (.cons k' v' tail'), ?_⟩
      rw [printMembers]
      · simp [List.cons_append]
      · exact fun hh => PyPairs.noConfusion hh

/-- A value parse at positive fuel on a non-special head is a number parse. -/
theorem parseVal_not_special (fuel : Nat) (c : Char) (cs : List Char)
    (hws : jsonWs c = false) (h1 : c ≠ 'n') (h2 : c ≠ 't') (h3 : c ≠ 'f')
    (h4 : c ≠ '"') (h5 : c ≠ '[') (h6 : c ≠ '\x7b') :
    parseVal (fuel + 1) (c :: cs) = parseNumber (c :: cs) := by
  rw [parseVal, skipWs_cons_no c hws cs]
  split
  · rename_i heq
    exact absurd heq (by simp)
  · rename_i c' rest' heq
    rw [List.cons.injEq] at heq
    obtain ⟨hc, hr⟩ := heq
    subst hc
    subst hr
    rw [if_neg h1, if_neg h2, if_neg h3, if_neg h4, if_neg h5, if_neg h6]

/-- A value parse ignores a leading whitespace character. -/
theorem parseVal_ws (fuel : Nat) (c : Char) (h : jsonWs c = true)
    (cs : List Char) : parseVal fuel (c :: cs) = parseVal fuel cs := by
  cases fuel with
  | zero => rfl
  | succ fuel => rw [parseVal, parseVal, skipWs_cons_yes c h cs]

/-- A member parse ignores a leading whitespace character. -/
theorem parseMembers_ws (fuel : Nat) (c : Char) (h : jsonWs c = true)
    (cs : List Char) : parseMembers fuel (c :: cs) = parseMembers fuel cs := by
  cases fuel with
  | zero => rfl
  | succ fuel => rw [parseMembers, parseMembers, skipWs_cons_yes c h cs]

/-- Unfolding a value parse at a quote. -/
theorem parseVal_quote (fuel : Nat) (cs : List Char) :
    parseVal (fuel + 1) ('"' :: cs) =
      match parseStrChars cs with
      | some (s, r) => some (.pyStr (String.mk s), r)
      | none => none := rfl

/-- Unfolding a value parse at an opening bracket. -/
theorem parseVal_lbracket (fuel : Nat) (cs : List Char) :
    parseVal (fuel + 1) ('[' :: cs) =
      match skipWs cs with
      | ']' :: r => some (.pyList .nil, r)
      | rest' =>
        match parseElems fuel rest' with
        | some (es, r) => some (.pyList es, r)
        | none => none := rfl

/-- Unfolding a value parse at an opening brace. -/
theorem parseVal_lbrace (fuel : Nat) (cs : List Char) :
    parseVal (fuel + 1) ('\x7b' :: cs) =
      match skipWs cs with
      | '\x7d' :: r => some (.pyDict .nil, r)
      | rest' =>
        match parseMembers fuel rest' with
        | some (ms, r) => some (.pyDict ms, r)
        | none => none := rfl

/-- The head of a printed integer is a minus sign or a digit; in particular
it is not whitespace and not a keyword/string/container opener. -/
theorem printInt_head (n : Int) :
    ∃ c cs, printInt n = c :: cs ∧ c ≠ 'n' ∧ c ≠ 't' ∧ jsonWs c = false ∧
      c ≠ 'f' ∧ c ≠ '"' ∧ c ≠ '[' ∧ c ≠ '\x7b' := by
  rw [printInt]
  split
  · exact ⟨'-', _, rfl, by decide⟩
  · obtain ⟨_, _, d, ds, hshape, hd⟩ := natDigits_spec n.toNat
    obtain ⟨_, h2, h3, h4, h5, h6, h7, h8, h9, _⟩ := digitChar_facts d hd
    exact ⟨digitChar d, ds, hshape, h4, h5, h3, h6, h7, h8, h9⟩

/-- The printed form of a value parses back to it (with any good tail), at
every sufficient parser fuel; likewise for non-empty element and member
lists followed by their closing delimiter. -/
theorem parse_print_roundtrip (fuel : Nat) :
    (∀ (v : PyVal) (rest : List Char), jweight v < fuel → goodTail rest →
      parseVal fuel (printJson v ++ rest) = some (v, rest)) ∧
    (∀ (es : PyItems) (rest : List Char), eweight es < fuel → es ≠ .nil →
      parseElems fuel (printElems es ++ ']' :: rest) = some (es, rest)) ∧
    (∀ (ms : PyPairs) (rest : List Char), mweight ms < fuel → ms ≠ .nil →
      parseMembers fuel (printMembers ms ++ '\x7d' :: rest) = some (ms, rest)) := by
  induction fuel with
  | zero =>
    exact ⟨fun v rest h _ => absurd h (Nat.not_lt_zero _),
           fun es rest h _ => absurd h (Nat.not_lt_zero _),
           fun ms rest h _ => absurd h (Nat.not_lt_zero _)⟩
  | succ fuel ih =>
    obtain ⟨ihV, ihE, ihM⟩ := ih
    refine ⟨?_, ?_, ?_⟩
    · intro v rest hw ht
      cases v with
      | pyNone => rfl
      | pyBool b => cases b <;> rfl
      | pyInt n =>
        obtain ⟨c, cs0, hpr, h1, h2, hws, h3, h4, h5, h6⟩ := printInt_head n
        rw [printJson, hpr, List.cons_append,
          parseVal_not_special fuel c _ hws h1 h2 h3 h4 h5 h6,
          ← List.cons_append, ← hpr]
        exact parseNumber_printInt n rest ht
      | pyStr s =>
        rw [printJson, List.cons_append, List.append_assoc, List.singleton_append,
          parseVal_quote, parseStrChars_escape s.data rest]
      | pyList es =>
        cases es with
        | nil => rfl
        | cons e tail =>
          rw [printJson, List.cons_append, List.append_assoc, List.singleton_append,
            parseVal_lbracket]
          obtain ⟨c, cs0, hpr, hws, hne1, _, _⟩ :=
            printElems_head (.cons e tail) (fun hh => PyItems.noConfusion hh)
          rw [hpr, List.cons_append, skipWs_cons_no c hws _]
          split
          · rename_i heq
            rw [List.cons.injEq] at heq
            exact absurd heq.1 hne1
          · rw [← List.cons_append, ← hpr,
              ihE (.cons e tail) rest (by simp [jweight] at hw; omega)
                (fun hh => PyItems.noConfusion hh)]
      | pyDict ms =>
        cases ms with
        | nil => rfl
        | cons k v tail =>
          rw [printJson, List.cons_append, List.append_assoc, List.singleton_append,
            parseVal_lbrace]
          obtain ⟨cs0, hpr⟩ :=
            printMembers_head (.cons k v tail) (fun hh => PyPairs.noConfusion hh)
          rw [hpr, List.cons_append, skipWs_cons_no '"' (by decide) _]
          split
          · rename_i heq
            rw [List.cons.injEq] at heq
            exact absurd heq.1 (by decide)
          · rw [← List.cons_append, ← hpr,
              ihM (.cons k v tail) rest (by simp [jweight] at hw; omega)
                (fun hh => PyPairs.noConfusion hh)]
    · intro es rest hw hne
      cases es with
      | nil => exact absurd rfl hne
      | cons e tail =>
        have hje : jweight e < fuel := by simp [eweight] at hw; omega
        cases tail with
        | nil =>
          have hprint : printElems (.cons e .nil) = printJson e := rfl
          rw [hprint, parseElems, ihV e (']' :: rest) hje (by simp [goodTail])]
          simp only [skipWs_cons_no ']' (by decide) rest]
        | cons e' tail' =>
          have het : eweight (.cons e' tail') < fuel := by
            simp only [eweight] at hw ⊢
            omega
          have hprint : printElems (.cons e (.cons e' tail')) =
              printJson e ++ ',' :: ' ' :: printElems (.cons e' tail') := rfl
          have hskE : skipWs (printElems (.cons e' tail') ++ ']' :: rest) =
              printElems (.cons e' tail') ++ ']' :: rest := by
            obtain ⟨c, cs0, hpr, hws, _, _, _⟩ :=
              printElems_head (.cons e' tail') (fun hh => PyItems.noConfusion hh)
            rw [hpr, List.cons_append, skipWs_cons_no c hws _]
          rw [hprint, List.append_assoc, List.cons_append, List.cons_append,
            parseElems,
            ihV e (',' :: ' ' :: (printElems (.cons e' tail') ++ ']' :: rest)) hje
              (by simp [goodTail])]
          simp only [skipWs_cons_no ',' (by decide), skipWs_cons_yes ' ' (by decide),
            hskE, ihE (.cons e' tail') rest het (fun hh => PyItems.noConfusion hh)]
    · intro ms rest hw hne
      cases ms with
      | nil => exact absurd rfl hne
      | cons k v tail =>
        have hjv : jweight v < fuel := by simp [mweight] at hw; omega
        cases tail with
        | nil =>
          have hform : printMembers (.cons k v .nil) ++ '\x7d' :: rest =
              '"' :: (escapeChars k.data ++
                ('"' :: ':' :: ' ' :: (printJson v ++ '\x7d' :: rest))) := by
            simp [printMembers]
          rw [hform, parseMembers, skipWs_cons_no '"' (by decide) _]
          simp only [parseStrChars_escape k.data,
            skipWs_cons_no ':' (by decide), parseVal_ws fuel ' ' (by decide),
            ihV v ('\x7d' :: rest) hjv (by simp [goodTail]),
            skipWs_cons_no '\x7d' (by decide), string_mk_data]
        | cons k' v' tail' =>
          have hmt : mweight (.cons k' v' tail') < fuel := by
            simp only [mweight] at hw ⊢
            omega
          have hform : printMembers (.cons k v (.cons k' v' tail')) ++ '\x7d' :: rest =
              '"' :: (escapeChars k.data ++
                ('"' :: ':' :: ' ' :: (printJson v ++
                  ',' :: ' ' :: (printMembers (.cons k' v' tail') ++
                    '\x7d' :: rest)))) := by
            simp [printMembers]
          have hskM : skipWs (printMembers (.cons k' v' tail') ++ '\x7d' :: rest) =
              printMembers (.cons k' v' tail') ++ '\x7d' :: rest := by
            obtain ⟨cs0, hpr⟩ :=
              printMembers_head (.cons k' v' tail') (fun hh => PyPairs.noConfusion hh)
            rw [hpr, List.cons_append, skipWs_cons_no '"' (by decide) _]
          rw [hform, parseMembers, skipWs_cons_no '"' (by decide) _]
          simp only [parseStrChars_escape k.data,
            skipWs_cons_no ':' (by decide), parseVal_ws fuel ' ' (by decide),
            ihV v (',' :: ' ' :: (printMembers (.cons k' v' tail') ++ '\x7d' :: rest))
              hjv (by simp [goodTail]),
            skipWs_cons_no ',' (by decide), parseMembers_ws fuel ' ' (by decide),
            hskM, ihM (.cons k' v' tail') rest hmt (fun hh => PyPairs.noConfusion hh),
            string_mk_data]

/-- A printed value is never empty. -/
theorem printJson_length_pos (v : PyVal) : 0 < (printJson v).length := by
  obtain ⟨c, cs, hpr, _⟩ := printJson_head v
  rw [hpr]
  simp

mutual
/-- The parser-fuel weight of a value is at most its printed length. -/
theorem jweight_le_print : ∀ v : PyVal, jweight v ≤ (printJson v).length
  | .pyNone => by simp [jweight, printJson]
  | .pyBool b => by cases b <;> simp [jweight, printJson]
  | .pyInt n => by
    rw [jweight, printJson]
    exact printJson_length_pos (.pyInt n)
  | .pyStr s => by
    rw [jweight, printJson]
    simp
  | .pyList es => by
    have h := eweight_le_print es
    rw [jweight, printJson]
    simp only [List.length_cons, List.length_append, List.length_singleton]
    omega
  | .pyDict ms => by
    have h := mweight_le_print ms
    rw [jweight, printJson]
    simp only [List.length_cons, List.length_append, List.length_singleton]
    omega

/-- Element-list weight against printed length. -/
theorem eweight_le_print : ∀ es : PyItems, eweight es ≤ (printElems es).length + 1
  | .nil => by simp [eweight, printElems]
  | .cons e .nil => by
    have h1 := jweight_le_print e
    have h2 := printJson_length_pos e
    have hpr : printElems (.cons e .nil) = printJson e := rfl
    rw [eweight, eweight, hpr]
    omega
  | .cons e (.cons e' tail') => by
    have h1 := jweight_le_print e
    have h2 := eweight_le_print (.cons e' tail')
    have hpr : printElems (.cons e (.cons e' tail')) =
        printJson e ++ ',' :: ' ' :: printElems (.cons e' tail') := rfl
    rw [eweight, hpr]
    simp only [List.length_append, List.length_cons]
    omega

/-- Member-list weight against printed length. -/
theorem mweight_le_print : ∀ ms : PyPairs, mweight ms ≤ (printMembers ms).length + 1
  | .nil => by simp [mweight, printMembers]
  | .cons k v .nil => by
    have h1 := jweight_le_print v
    have hpr : printMembers (.cons k v .nil) =
        '"' :: (escapeChars k.data ++ ['"', ':', ' ']) ++ printJson v := rfl
    rw [mweight, mweight, hpr]
    simp only [List.length_append, List.length_cons]
    omega
  | .cons k v (.cons k' v' tail') => by
    have h1 := jweight_le_print v
    have h2 := mweight_le_print (.cons k' v' tail')
    have hpr : printMembers (.cons k v (.cons k' v' tail')) =
        '"' :: (escapeChars k.data ++ ['"', ':', ' ']) ++ printJson v ++
          ',' :: ' ' :: printMembers (.cons k' v' tail') := rfl
    rw [mweight, hpr]
    simp only [List.length_append, List.length_cons]
    omega
end

/-- `json.loads` inverts `json.dumps`. -/
theorem json_loads_dumps (v : PyVal) : json_loads (json_dumps v) = some v := by
  have h := (parse_print_roundtrip ((printJson v).length + 1)).1 v []
    (Nat.lt_succ_of_le (jweight_le_print v)) trivial
  rw [List.append_nil] at h
  have hdata : (json_dumps v).data = printJson v := rfl
  rw [json_loads, hdata, h]
  rfl

/-! ## Claim C10: config set/get round trip -/

/-- C10: the config set/get round trip is value-preserving for every
non-string JSON value (`set_config` JSON-encodes, `get_config` decodes),
but not for string inputs that themselves parse as JSON: the string
`"true"` is stored verbatim and read back as the boolean `true`, which is
not the stored string value. -/
theorem claim_C10_config_roundtrip :
    (∀ v : PyVal, v.isStr = false →
      get_config_value (set_config_value v) = v) ∧
    get_config_value (set_config_value (.pyStr "true")) = .pyBool true ∧
    PyVal.pyBool true ≠ PyVal.pyStr "true" := by
  refine ⟨?_, by rfl, fun h => PyVal.noConfusion h⟩
  intro v hv
  have hset : set_config_value v = json_dumps v := by
    cases v <;> first | rfl | simp [PyVal.isStr] at hv
  rw [hset]
  simp only [get_config_value, json_loads_dumps]

/-- C10 witness: the round-trip theorem applied at the non-string values
`7` and `[false]`, the hypothesis evaluated by `rfl`. -/
theorem claim_C10_witness :
    get_config_value (set_config_value (.pyInt 7)) = .pyInt 7 ∧
    get_config_value (set_config_value (.pyList (.cons (.pyBool false) .nil))) =
      .pyList (.cons (.pyBool false) .nil) :=
  ⟨claim_C10_config_roundtrip.1 (.pyInt 7) rfl,
   claim_C10_config_roundtrip.1 (.pyList (.cons (.pyBool false) .nil)) rfl⟩
